import Mathlib

/-!
# Verification of `vkutils.cc`

A shallow embedding of the core algorithms of the `vkutils` utility layer
(`src/vkutils.cc`) together with proofs about them:

* `concat_specialization_info` — merging two shader-specialization tables
  (entries + backing byte blob), C++ lines 107–136;
* `confirm_queue_fam` / `score_physical_device` / `select_physical_device`
  — physical-device capability check, scoring and selection,
  C++ lines 21–37 and 424–472;
* `QueueClosure.beginOneSubmitCommands` / `finishOneSubmitCommands` /
  `cleanupSubmit` — the transient one-shot command submission closure,
  C++ lines 138–208, modelled as a state transformer that also emits the
  trace of host-API calls it performs.

Machine integers are modelled as `Nat`; the one place the C++ code performs
width-sensitive arithmetic (the `uint32_t` offset shift in
`concat_specialization_info`, and the `uint32_t` addition in its `addOffset`
lambda) is modelled with an explicit reduction modulo `2 ^ 32`.
-/

set_option autoImplicit false

namespace Vkutils

/-- The constant `VK_NULL_HANDLE` is the zero handle. Handles are modelled as `Nat`. -/
def VK_NULL_HANDLE : Nat := 0

/-- The constant `VK_QUEUE_GRAPHICS_BIT` (bit 0 of a queue-family capability mask). -/
def VK_QUEUE_GRAPHICS_BIT : Nat := 1

/-- The constant `VK_QUEUE_COMPUTE_BIT` (bit 1 of a queue-family capability mask). -/
def VK_QUEUE_COMPUTE_BIT : Nat := 2

/-- The modulus of `uint32_t` arithmetic. -/
def U32 : Nat := 2 ^ 32

/-! ## Specialization-table merge (`concat_specialization_info`) -/

/-- One `VkSpecializationMapEntry`: `(constantID, offset, size)`.
`constantID` and `offset` are `uint32_t` in the source, `size` is `size_t`. -/
structure VkSpecializationMapEntry where
  constantID : Nat
  offset : Nat
  size : Nat
deriving DecidableEq, Repr

/-- A `VkSpecializationInfo`: the entry table (`pMapEntries`, with
`mapEntryCount` its length) and the backing data blob (`pData`, with
`dataSize` its length), modelled as lists. -/
structure VkSpecializationInfo where
  pMapEntries : List VkSpecializationMapEntry
  pData : List Nat
deriving DecidableEq, Repr

/-- The `mapEntryCount` of a modelled `VkSpecializationInfo`. -/
def VkSpecializationInfo.mapEntryCount (s : VkSpecializationInfo) : Nat :=
  s.pMapEntries.length

/-- The `dataSize` of a modelled `VkSpecializationInfo`. -/
def VkSpecializationInfo.dataSize (s : VkSpecializationInfo) : Nat :=
  s.pData.length

/-- The function `vkutils::concat_specialization_info` (C++ lines 107–136): copy A's
entries and bytes, append B's bytes, then append B's entries with
`offset + additionalOffset` where
`additionalOffset = static_cast<uint32_t>(a.dataSize)` and the addition is
`uint32_t` addition (hence the two reductions mod `2 ^ 32`). -/
def concat_specialization_info (a b : VkSpecializationInfo) :
    VkSpecializationInfo :=
  let additionalOffset : Nat := a.pData.length % U32
  let addOffset : VkSpecializationMapEntry → VkSpecializationMapEntry :=
    fun entry =>
      { constantID := entry.constantID
        offset := (entry.offset + additionalOffset) % U32
        size := entry.size }
  { pMapEntries := a.pMapEntries ++ b.pMapEntries.map addOffset
    pData := a.pData ++ b.pData }

/-- The bounds invariant of a specialization table: every entry's
`[offset, offset + size)` range lies within the blob. -/
def VkSpecializationInfo.WF (s : VkSpecializationInfo) : Prop :=
  ∀ e ∈ s.pMapEntries, e.offset + e.size ≤ s.pData.length

/-! ## Device scoring and selection -/

/-- The enum `VkPhysicalDeviceType` (the five named classes; `default:` in the
source's `switch` is unreachable for well-typed inputs, so the enum is
modelled exactly). -/
inductive VkPhysicalDeviceType where
  | other
  | integratedGpu
  | discreteGpu
  | virtualGpu
  | cpu
deriving DecidableEq, Repr

/-- One `VkQueueFamilyProperties`: a capability bitmask and the number of
available queues. -/
structure VkQueueFamilyProperties where
  queueFlags : Nat
  queueCount : Nat
deriving DecidableEq, Repr

/-- A physical device, as observed through the query API used by
`score_physical_device` and `confirm_queue_fam`: its type classification
and its queue-family list. (The features query result is fetched by the
source but unused.) -/
structure VkPhysicalDevice where
  deviceType : VkPhysicalDeviceType
  queueFamilies : List VkQueueFamilyProperties
deriving DecidableEq, Repr

/-- The helper `confirm_queue_fam` (C++ lines 424–437): OR together
`aBitmask & queueFlags` over every family with at least one queue, and
check the accumulated mask equals `aBitmask`. -/
def confirm_queue_fam (aDevice : VkPhysicalDevice) (aBitmask : Nat) : Bool :=
  let maskResult : Nat :=
    aDevice.queueFamilies.foldl
      (fun maskResult queueFamily =>
        if queueFamily.queueCount > 0 then
          maskResult ||| (aBitmask &&& queueFamily.queueFlags)
        else
          maskResult)
      0
  maskResult == aBitmask

/-- The base score contributed by the `switch` on `deviceType`
(C++ lines 447–465). -/
def base_type_score : VkPhysicalDeviceType → Int
  | .other => 0
  | .integratedGpu => 2000
  | .discreteGpu => 4000
  | .virtualGpu => 3000
  | .cpu => 1000

/-- The helper `score_physical_device` (C++ lines 439–472): base score by device type,
forced to `-1` when `confirm_queue_fam` fails for
`VK_QUEUE_GRAPHICS_BIT | VK_QUEUE_COMPUTE_BIT`. -/
def score_physical_device (aDevice : VkPhysicalDevice) : Int :=
  let score : Int := base_type_score aDevice.deviceType
  if confirm_queue_fam aDevice (VK_QUEUE_GRAPHICS_BIT ||| VK_QUEUE_COMPUTE_BIT)
  then score
  else -1

/-- The selection loop of `select_physical_device` (C++ lines 25–31): walk
the devices with index `i`, keeping `(high_score, max_index)` and updating
only on a strictly greater score. -/
def selectLoop :
    List VkPhysicalDevice → Nat → Int × Nat → Int × Nat
  | [], _, st => st
  | d :: rest, i, st =>
      selectLoop rest (i + 1)
        (if score_physical_device d > st.1 then (score_physical_device d, i)
         else st)

/-- The function `vkutils::select_physical_device` (C++ lines 21–37): run the selection
loop from `(high_score, max_index) = (-1, 0)`; return the device at
`max_index` when `high_score ≥ 0`, else `VK_NULL_HANDLE` (modelled as
`none`). -/
def select_physical_device (aDevices : List VkPhysicalDevice) :
    Option VkPhysicalDevice :=
  let st := selectLoop aDevices 0 (-1, 0)
  if st.1 ≥ 0 then aDevices[st.2]? else none

/-! ## The transient one-shot submission closure (`QueueClosure`)

The closure's methods call into the host (Vulkan) API. The embedding turns
each method into a pure function on the closure's member state that also
returns the ordered list of host-API calls it performs, so that temporal
and frame claims become statements about the emitted trace. The
nondeterministic values supplied by the host — the fresh handles returned
by `vkCreateCommandPool` / `vkAllocateCommandBuffers` and the `VkResult`
of `vkQueueSubmit` — are passed in as oracle parameters. -/

/-- The subset of `VkResult` values relevant to submission; `success` is
`VK_SUCCESS`, the rest are the error codes `vkQueueSubmit` may return. -/
inductive VkResult where
  | success
  | errorOutOfHostMemory
  | errorOutOfDeviceMemory
  | errorDeviceLost
deriving DecidableEq, Repr

/-- One host-API call performed by the closure, with its arguments. -/
inductive VkCall where
  | createCommandPool (pool : Nat)
  | allocateCommandBuffers (pool : Nat) (cmdBuffer : Nat)
  | beginCommandBuffer (cmdBuffer : Nat)
  | endCommandBuffer (cmdBuffer : Nat)
  | queueSubmit (queue : Nat) (waitSemaphores : List Nat)
      (signalSemaphores : List Nat) (cmdBuffers : List Nat) (fence : Nat)
  | queueWaitIdle (queue : Nat)
  | freeCommandBuffers (pool : Nat) (cmdBuffers : List Nat)
  | destroyCommandPool (pool : Nat)
deriving DecidableEq, Repr

/-- The member state of a `vkutils::QueueClosure`: the bound queue and
family index, the device, the (possibly null) internally-owned command
pool handle `mCommandPool` and the `mCmdPoolInternal` flag. -/
structure QueueClosure where
  mQueue : Nat
  mFamilyIdx : Nat
  device : Nat
  mCommandPool : Nat
  mCmdPoolInternal : Bool
deriving DecidableEq, Repr

/-- The method `QueueClosure::beginOneSubmitCommands` (C++ lines 138–170). When the
caller passes `VK_NULL_HANDLE`, an internal transient pool is created
(handle `freshPool`, stored in `mCommandPool`, flag set); otherwise the
caller's pool is used as-is. One primary command buffer (handle
`freshCmdBuffer`) is then allocated from the chosen pool and put into
recording mode. Returns (new state, command buffer, API-call trace). -/
def QueueClosure.beginOneSubmitCommands (self : QueueClosure)
    (aCommandPool freshPool freshCmdBuffer : Nat) :
    QueueClosure × Nat × List VkCall :=
  let (self, aCommandPool, trace) :=
    if aCommandPool = VK_NULL_HANDLE then
      ({ self with mCmdPoolInternal := true, mCommandPool := freshPool },
       freshPool, [VkCall.createCommandPool freshPool])
    else
      (self, aCommandPool, [])
  (self, freshCmdBuffer,
   trace ++ [VkCall.allocateCommandBuffers aCommandPool freshCmdBuffer,
             VkCall.beginCommandBuffer freshCmdBuffer])

/-- The method `QueueClosure::_cleanupSubmit` (C++ lines 199–208): free the command
buffer from the internal pool when one was internally created, destroy the
stored pool when non-null (nulling the member), and clear the flag. -/
def QueueClosure.cleanupSubmit (self : QueueClosure) (aCmdBuffer : Nat) :
    QueueClosure × List VkCall :=
  let freeTrace :=
    if aCmdBuffer ≠ VK_NULL_HANDLE ∧ self.mCmdPoolInternal then
      [VkCall.freeCommandBuffers self.mCommandPool [aCmdBuffer]]
    else []
  let (self, destroyTrace) :=
    if self.mCommandPool ≠ VK_NULL_HANDLE then
      ({ self with mCommandPool := VK_NULL_HANDLE },
       [VkCall.destroyCommandPool self.mCommandPool])
    else
      (self, [])
  ({ self with mCmdPoolInternal := false }, freeTrace ++ destroyTrace)

/-- The method `QueueClosure::finishOneSubmitCommands` (five-argument overload,
C++ lines 176–197): end recording, build the one-buffer submission with
the given wait/signal semaphores, submit with the optional fence
(`submitResult` is the host's response), wait for queue idle exactly when
the submit succeeded, a wait was requested and the fence is null, then run
cleanup. Returns (new state, the raw submit result, API-call trace). -/
def QueueClosure.finishOneSubmitCommands (self : QueueClosure)
    (aCmdBuffer : Nat) (aWaitSemaphores aSignalSemaphores : List Nat)
    (aFence : Nat) (aShouldWait : Bool) (submitResult : VkResult) :
    QueueClosure × VkResult × List VkCall :=
  let trace : List VkCall :=
    [VkCall.endCommandBuffer aCmdBuffer,
     VkCall.queueSubmit self.mQueue aWaitSemaphores aSignalSemaphores
       [aCmdBuffer] aFence]
  let trace :=
    trace ++
      (if submitResult = VkResult.success ∧ aShouldWait = true ∧
          aFence = VK_NULL_HANDLE
       then [VkCall.queueWaitIdle self.mQueue]
       else [])
  let (self, cleanupTrace) := self.cleanupSubmit aCmdBuffer
  (self, submitResult, trace ++ cleanupTrace)

/-- The method `QueueClosure::finishOneSubmitCommands` (two-argument overload,
C++ lines 172–174): delegates to the five-argument overload with empty
wait and signal semaphore lists. -/
def QueueClosure.finishOneSubmitCommandsNoSem (self : QueueClosure)
    (aCmdBuffer : Nat) (aFence : Nat) (aShouldWait : Bool)
    (submitResult : VkResult) : QueueClosure × VkResult × List VkCall :=
  self.finishOneSubmitCommands aCmdBuffer [] [] aFence aShouldWait
    submitResult

/-- Modelled from the spec: the constructed / reusable "Idle" closure
state. The `QueueClosure` constructor and member initializers live in
`vkutils.h`, which is not part of the sources; the spec's lifecycle
("constructed bound to a queue", `finish` "resets the flag so the object
is reusable") fixes it as: no stored pool handle, flag false. -/
def QueueClosure.Idle (self : QueueClosure) : Prop :=
  self.mCommandPool = VK_NULL_HANDLE ∧ self.mCmdPoolInternal = false

/-! ## Theorems -/

/-- C3 counterexample: the claim "every entry contributed by B has offset
equal to its original offset plus sizeA" is false as stated, because the
source computes the shift as `static_cast<uint32_t>(a.dataSize)` and adds
it with `uint32_t` arithmetic. With `A` a table holding a `2 ^ 32`-byte
blob and `B` a table with one entry at offset `0`, the merged entry's
offset is `0`, not `0 + 2 ^ 32`. -/
theorem concat_specialization_offset_cex :
    ¬ ∀ (a b : VkSpecializationInfo),
        ((concat_specialization_info a b).pMapEntries.drop
            a.pMapEntries.length).map VkSpecializationMapEntry.offset
          = b.pMapEntries.map (fun e => e.offset + a.dataSize) := by
  intro h
  obtain ⟨blob, hblob⟩ : ∃ blob : List Nat, blob.length = U32 :=
    ⟨List.replicate U32 0, List.length_replicate U32 0⟩
  have hh := h ⟨[], blob⟩ ⟨[⟨0, 0, 0⟩], []⟩
  simp only [concat_specialization_info, VkSpecializationInfo.dataSize,
    hblob, List.length_nil, List.drop_zero, List.nil_append, List.map_map,
    List.map_cons, List.map_nil, Function.comp, Nat.mod_self, Nat.add_zero,
    Nat.zero_add, Nat.zero_mod, List.cons.injEq, and_true] at hh
  exact absurd hh (by norm_num [U32])

/-- C3 (amended): merging produces `countA + countB` entries over the
concatenated `blobA ++ blobB`; A's entries and bytes sit unchanged at the
front, B's bytes follow, and each of B's entries keeps its constant
identifier and size while its offset becomes
`(original offset + sizeA) mod 2 ^ 32` (equal to `original offset + sizeA`
whenever that sum is below `2 ^ 32`). -/
theorem concat_specialization_info_correct (a b : VkSpecializationInfo) :
    (concat_specialization_info a b).mapEntryCount
        = a.mapEntryCount + b.mapEntryCount ∧
    (concat_specialization_info a b).dataSize = a.dataSize + b.dataSize ∧
    (concat_specialization_info a b).pMapEntries.take a.mapEntryCount
        = a.pMapEntries ∧
    (concat_specialization_info a b).pData = a.pData ++ b.pData ∧
    ((concat_specialization_info a b).pMapEntries.drop a.mapEntryCount).map
        VkSpecializationMapEntry.constantID
      = b.pMapEntries.map VkSpecializationMapEntry.constantID ∧
    ((concat_specialization_info a b).pMapEntries.drop a.mapEntryCount).map
        VkSpecializationMapEntry.size
      = b.pMapEntries.map VkSpecializationMapEntry.size ∧
    ((concat_specialization_info a b).pMapEntries.drop a.mapEntryCount).map
        VkSpecializationMapEntry.offset
      = b.pMapEntries.map (fun e => (e.offset + a.dataSize) % U32) := by
  refine ⟨?_, ?_, ?_, ?_, ?_, ?_, ?_⟩ <;>
    simp [concat_specialization_info, VkSpecializationInfo.mapEntryCount,
      VkSpecializationInfo.dataSize, List.take_left, List.drop_left,
      Nat.add_mod_mod, Function.comp]

/-- C6: merging with the empty table is an identity (for real tables,
whose offsets are `uint32_t` values, i.e. below `2 ^ 32`): an empty A
yields exactly B's entries and bytes, and an empty B yields exactly A's
entries and bytes. -/
theorem concat_specialization_info_empty (a b : VkSpecializationInfo)
    (hb : ∀ e ∈ b.pMapEntries, e.offset < U32) :
    concat_specialization_info ⟨[], []⟩ b = b ∧
    concat_specialization_info a ⟨[], []⟩ = a := by
  constructor
  · simp only [concat_specialization_info, List.length_nil, Nat.zero_mod,
      List.nil_append]
    have he : b.pMapEntries.map
        (fun e => (⟨e.constantID, (e.offset + 0) % U32, e.size⟩ :
          VkSpecializationMapEntry)) = b.pMapEntries := by
      rw [List.map_congr_left (g := id), List.map_id]
      intro e he
      simp [Nat.mod_eq_of_lt (hb e he)]
    exact congrArg (fun l => VkSpecializationInfo.mk l b.pData) he
  · simp [concat_specialization_info]

/-- C6 witness: both identities evaluated on concrete tables. -/
theorem concat_specialization_info_empty_witness :
    concat_specialization_info ⟨[], []⟩ ⟨[⟨7, 1, 2⟩], [5, 6, 9]⟩
        = ⟨[⟨7, 1, 2⟩], [5, 6, 9]⟩ ∧
    concat_specialization_info ⟨[⟨1, 0, 4⟩], [1, 2, 3, 4]⟩ ⟨[], []⟩
        = ⟨[⟨1, 0, 4⟩], [1, 2, 3, 4]⟩ :=
  concat_specialization_info_empty ⟨[⟨1, 0, 4⟩], [1, 2, 3, 4]⟩
    ⟨[⟨7, 1, 2⟩], [5, 6, 9]⟩ (by decide)

/-- C8: the merge preserves the bounds invariant: if every entry of each
input stays within its own blob and the combined blob size fits the
32-bit offset arithmetic, every entry of the merged table stays within
the merged blob of length `sizeA + sizeB`. -/
theorem concat_specialization_info_preserves_WF
    (a b : VkSpecializationInfo) (ha : a.WF) (hb : b.WF)
    (hsize : a.dataSize + b.dataSize < U32) :
    (concat_specialization_info a b).WF := by
  intro e he
  simp only [concat_specialization_info, List.mem_append, List.mem_map,
    List.length_append] at he ⊢
  rcases he with he | ⟨f, hf, rfl⟩
  · exact le_trans (ha e he) (Nat.le_add_right _ _)
  · dsimp only
    have hfb := hb f hf
    simp only [VkSpecializationInfo.dataSize] at hsize
    have h1 : a.pData.length % U32 = a.pData.length :=
      Nat.mod_eq_of_lt (by omega)
    rw [h1]
    have h2 : (f.offset + a.pData.length) % U32
        = f.offset + a.pData.length := Nat.mod_eq_of_lt (by omega)
    rw [h2]
    omega

/-- C8 witness: the invariant holds for the merge of two concrete
well-formed tables (the spec's own scenario: one 4-byte entry over a
4-byte blob merged with one 8-byte entry over an 8-byte blob). -/
theorem concat_specialization_info_preserves_WF_witness :
    (concat_specialization_info ⟨[⟨0, 0, 4⟩], [1, 2, 3, 4]⟩
      ⟨[⟨1, 0, 8⟩], [0, 0, 0, 0, 0, 0, 0, 0]⟩).WF :=
  concat_specialization_info_preserves_WF _ _
    (by unfold VkSpecializationInfo.WF; decide)
    (by unfold VkSpecializationInfo.WF; decide)
    (by decide)

/-- Invariant of the selection loop: the final `high_score` dominates the
initial one and every score in the remaining list, and either the state is
returned untouched or it comes from the element at some offset `j`, was a
strict improvement over the initial `high_score`, and strictly beats every
earlier element (`max_index` is only updated on strict `>`). -/
theorem selectLoop_inv (l : List VkPhysicalDevice) (i : Nat) (st : Int × Nat) :
    st.1 ≤ (selectLoop l i st).1 ∧
    (∀ j (h : j < l.length),
      score_physical_device (l.get ⟨j, h⟩) ≤ (selectLoop l i st).1) ∧
    (selectLoop l i st = st ∨
      ∃ j, ∃ h : j < l.length,
        (selectLoop l i st).1 = score_physical_device (l.get ⟨j, h⟩) ∧
        (selectLoop l i st).2 = i + j ∧
        st.1 < (selectLoop l i st).1 ∧
        ∀ k (hk : k < j),
          score_physical_device (l.get ⟨k, Nat.lt_trans hk h⟩) <
            (selectLoop l i st).1) := by
  induction l generalizing i st with
  | nil => simp [selectLoop]
  | cons d rest ih =>
    by_cases hgt : score_physical_device d > st.1
    · have hstep : selectLoop (d :: rest) i st
          = selectLoop rest (i + 1) (score_physical_device d, i) := by
        simp [selectLoop, hgt]
      obtain ⟨ha, hb, hc⟩ := ih (i + 1) (score_physical_device d, i)
      rw [hstep]
      refine ⟨le_trans (le_of_lt hgt) ha, ?_, ?_⟩
      · intro j h
        match j with
        | 0 => exact ha
        | j + 1 => exact hb j (Nat.lt_of_succ_lt_succ h)
      · rcases hc with hc | ⟨j, hj, e1, e2, e3, e4⟩
        · refine Or.inr ⟨0, Nat.succ_pos _, ?_, ?_, ?_, ?_⟩
          · simp [hc]
          · simp [hc]
          · rw [hc]; exact hgt
          · intro k hk; exact absurd hk (Nat.not_lt_zero k)
        · refine Or.inr ⟨j + 1, Nat.succ_lt_succ hj, e1, by omega, ?_, ?_⟩
          · exact lt_trans hgt e3
          · intro k hk
            match k with
            | 0 => exact lt_of_le_of_lt (le_refl _) e3
            | k + 1 => exact e4 k (Nat.lt_of_succ_lt_succ hk)
    · have hstep : selectLoop (d :: rest) i st = selectLoop rest (i + 1) st := by
        simp [selectLoop, hgt]
      obtain ⟨ha, hb, hc⟩ := ih (i + 1) st
      rw [hstep]
      refine ⟨ha, ?_, ?_⟩
      · intro j h
        match j with
        | 0 => exact le_trans (not_lt.mp hgt) ha
        | j + 1 => exact hb j (Nat.lt_of_succ_lt_succ h)
      · rcases hc with hc | ⟨j, hj, e1, e2, e3, e4⟩
        · exact Or.inl hc
        · refine Or.inr ⟨j + 1, Nat.succ_lt_succ hj, e1, by omega, e3, ?_⟩
          intro k hk
          match k with
          | 0 => exact lt_of_le_of_lt (not_lt.mp hgt) e3
          | k + 1 => exact e4 k (Nat.lt_of_succ_lt_succ hk)

/-- C2: `select_physical_device` returns `none` when no device is eligible
(score `≥ 0`), including the empty-list case; and when some device is
eligible it returns the device at an index `j` that attains the maximum
score, with every strictly earlier index scoring strictly less (ties keep
the earliest candidate). -/
theorem select_physical_device_spec (l : List VkPhysicalDevice) :
    ((∀ d ∈ l, score_physical_device d < 0) →
      select_physical_device l = none) ∧
    ((∃ d ∈ l, 0 ≤ score_physical_device d) →
      ∃ j : Fin l.length,
        select_physical_device l = some (l.get j) ∧
        0 ≤ score_physical_device (l.get j) ∧
        (∀ k : Fin l.length,
          score_physical_device (l.get k) ≤ score_physical_device (l.get j)) ∧
        (∀ k : Fin l.length, (k : Nat) < (j : Nat) →
          score_physical_device (l.get k) < score_physical_device (l.get j)))
    := by
  obtain ⟨h1, h2, h3⟩ := selectLoop_inv l 0 (-1, 0)
  constructor
  · intro hall
    unfold select_physical_device
    rcases h3 with h3 | ⟨j, hj, e1, _, _, _⟩
    · rw [h3]; norm_num
    · have : score_physical_device (l.get ⟨j, hj⟩) < 0 :=
        hall _ (l.get_mem _ _)
      rw [if_neg (by omega)]
  · rintro ⟨d, hd, hscore⟩
    obtain ⟨n, hn⟩ := List.mem_iff_get.mp hd
    have hge : 0 ≤ (selectLoop l 0 (-1, 0)).1 := by
      have := h2 n n.isLt
      rw [Fin.eta] at this
      rw [hn] at this
      omega
    rcases h3 with h3 | ⟨j, hj, e1, e2, e3, e4⟩
    · rw [h3] at hge; norm_num at hge
    · refine ⟨⟨j, hj⟩, ?_, ?_, ?_, ?_⟩
      · unfold select_physical_device
        rw [if_pos hge, e2]
        simp [List.getElem?_eq_getElem hj]
      · rw [← e1]; exact hge
      · intro k; rw [← e1]; exact h2 k k.isLt
      · intro k hk; rw [← e1]; exact e4 k hk

/-- C2 witness: on a one-device ineligible list (a discrete device whose
only family lacks the compute bit) selection returns `none`; on the spec's
two-device scenario (integrated then discrete, both eligible) selection
returns an index with the stated maximality and earliest-tie properties
(here index 1, the discrete device). -/
theorem select_physical_device_spec_witness :
    select_physical_device [⟨.discreteGpu, [⟨1, 1⟩]⟩] = none ∧
    (∃ j : Fin ([⟨.integratedGpu, [⟨3, 1⟩]⟩,
                 ⟨.discreteGpu, [⟨3, 1⟩]⟩] :
        List VkPhysicalDevice).length,
      select_physical_device [⟨.integratedGpu, [⟨3, 1⟩]⟩,
          ⟨.discreteGpu, [⟨3, 1⟩]⟩]
        = some (([⟨.integratedGpu, [⟨3, 1⟩]⟩,
                  ⟨.discreteGpu, [⟨3, 1⟩]⟩] :
            List VkPhysicalDevice).get j) ∧
      0 ≤ score_physical_device (([⟨.integratedGpu, [⟨3, 1⟩]⟩,
          ⟨.discreteGpu, [⟨3, 1⟩]⟩] : List VkPhysicalDevice).get j) ∧
      (∀ k : Fin ([⟨.integratedGpu, [⟨3, 1⟩]⟩,
                   ⟨.discreteGpu, [⟨3, 1⟩]⟩] :
          List VkPhysicalDevice).length,
        score_physical_device (([⟨.integratedGpu, [⟨3, 1⟩]⟩,
            ⟨.discreteGpu, [⟨3, 1⟩]⟩] : List VkPhysicalDevice).get k) ≤
          score_physical_device (([⟨.integratedGpu, [⟨3, 1⟩]⟩,
              ⟨.discreteGpu, [⟨3, 1⟩]⟩] : List VkPhysicalDevice).get j)) ∧
      (∀ k : Fin ([⟨.integratedGpu, [⟨3, 1⟩]⟩,
                   ⟨.discreteGpu, [⟨3, 1⟩]⟩] :
          List VkPhysicalDevice).length, (k : Nat) < (j : Nat) →
        score_physical_device (([⟨.integratedGpu, [⟨3, 1⟩]⟩,
            ⟨.discreteGpu, [⟨3, 1⟩]⟩] : List VkPhysicalDevice).get k) <
          score_physical_device (([⟨.integratedGpu, [⟨3, 1⟩]⟩,
              ⟨.discreteGpu, [⟨3, 1⟩]⟩] : List VkPhysicalDevice).get j))) :=
  ⟨(select_physical_device_spec [⟨.discreteGpu, [⟨1, 1⟩]⟩]).1 (by decide),
   (select_physical_device_spec _).2
     ⟨⟨.discreteGpu, [⟨3, 1⟩]⟩, by simp, by decide⟩⟩

/-- Bit `i` of the capability accumulator of `confirm_queue_fam`: it is set
iff it was set in the accumulator's initial value or some family with at
least one queue contributes it. -/
theorem confirm_foldl_testBit (l : List VkQueueFamilyProperties)
    (m acc i : Nat) :
    (l.foldl
      (fun maskResult queueFamily =>
        if queueFamily.queueCount > 0 then
          maskResult ||| (m &&& queueFamily.queueFlags)
        else
          maskResult)
      acc).testBit i
      = (acc.testBit i ||
         l.any (fun queueFamily =>
           decide (queueFamily.queueCount > 0) &&
             (m &&& queueFamily.queueFlags).testBit i)) := by
  induction l generalizing acc with
  | nil => simp
  | cons qf rest ih =>
    by_cases h : qf.queueCount > 0
    · simp [h, ih, Nat.testBit_or, Bool.or_assoc]
    · simp [h, ih]

/-- Bits `2` and above of the number `3` are clear. -/
theorem three_testBit_ge_two (i : Nat) : Nat.testBit 3 (i + 2) = false := by
  have h3 : (3 : Nat) = 2 ^ 2 - 1 := by norm_num
  rw [h3, Nat.testBit_two_pow_sub_one]
  simp

/-- The accumulated-union check of `confirm_queue_fam` for the
graphics-and-compute mask succeeds iff some family with an available queue
carries the graphics bit and some (possibly different) family with an
available queue carries the compute bit. -/
theorem confirm_queue_fam_gc_iff (d : VkPhysicalDevice) :
    confirm_queue_fam d (VK_QUEUE_GRAPHICS_BIT ||| VK_QUEUE_COMPUTE_BIT)
        = true ↔
      ((∃ qf ∈ d.queueFamilies,
          0 < qf.queueCount ∧ qf.queueFlags.testBit 0 = true) ∧
       (∃ qf ∈ d.queueFamilies,
          0 < qf.queueCount ∧ qf.queueFlags.testBit 1 = true)) := by
  have hm : VK_QUEUE_GRAPHICS_BIT ||| VK_QUEUE_COMPUTE_BIT = 3 := by decide
  have t30 : Nat.testBit 3 0 = true := by decide
  have t31 : Nat.testBit 3 1 = true := by decide
  unfold confirm_queue_fam
  rw [hm, beq_iff_eq]
  constructor
  · intro h
    constructor
    · have h0 := congrArg (fun x => Nat.testBit x 0) h
      simp only [confirm_foldl_testBit, Nat.zero_testBit, Bool.false_or,
        t30] at h0
      rw [List.any_eq_true] at h0
      obtain ⟨qf, hqf, hp⟩ := h0
      simp only [Bool.and_eq_true, decide_eq_true_eq, Nat.testBit_and, t30,
        Bool.true_and] at hp
      exact ⟨qf, hqf, hp.1, hp.2⟩
    · have h1 := congrArg (fun x => Nat.testBit x 1) h
      simp only [confirm_foldl_testBit, Nat.zero_testBit, Bool.false_or,
        t31] at h1
      rw [List.any_eq_true] at h1
      obtain ⟨qf, hqf, hp⟩ := h1
      simp only [Bool.and_eq_true, decide_eq_true_eq, Nat.testBit_and, t31,
        Bool.true_and] at hp
      exact ⟨qf, hqf, hp.1, hp.2⟩
  · rintro ⟨⟨qg, hqg, hcg, hbg⟩, ⟨qc, hqc, hcc, hbc⟩⟩
    apply Nat.eq_of_testBit_eq
    intro i
    rw [confirm_foldl_testBit]
    match i with
    | 0 =>
      simp only [Nat.zero_testBit, Bool.false_or, t30]
      rw [List.any_eq_true]
      refine ⟨qg, hqg, ?_⟩
      simp only [Bool.and_eq_true, decide_eq_true_eq, Nat.testBit_and, t30,
        Bool.true_and]
      exact ⟨hcg, hbg⟩
    | 1 =>
      simp only [Nat.zero_testBit, Bool.false_or, t31]
      rw [List.any_eq_true]
      refine ⟨qc, hqc, ?_⟩
      simp only [Bool.and_eq_true, decide_eq_true_eq, Nat.testBit_and, t31,
        Bool.true_and]
      exact ⟨hcc, hbc⟩
    | i + 2 =>
      simp [three_testBit_ge_two, Nat.testBit_and]

/-- C1 counterexample: a discrete device whose graphics support and compute
support lie in two different queue families (flags `1` and `2`, one queue
each) is scored `4000`, not the ineligible `-1` the claim requires: the
source accumulates capability bits across families
(`maskResult |= aBitmask & queueFamily.queueFlags`), so no single family
has to support both bits. -/
theorem score_physical_device_split_families_cex :
    score_physical_device ⟨.discreteGpu, [⟨1, 1⟩, ⟨2, 1⟩]⟩ = 4000 ∧
    ¬ ∃ qf ∈ ([⟨1, 1⟩, ⟨2, 1⟩] : List VkQueueFamilyProperties),
        0 < qf.queueCount ∧ qf.queueFlags.testBit 0 = true ∧
          qf.queueFlags.testBit 1 = true := by
  decide

/-- C1 (amended): `score_physical_device` returns the ineligible sentinel
`-1` iff it is not the case that both required capability bits are covered
— the graphics bit by some family with an available queue and the compute
bit by some, possibly different, family with an available queue; when both
are covered, the base device-type score is returned unmodified. -/
theorem score_physical_device_eligibility (d : VkPhysicalDevice) :
    (score_physical_device d = -1 ↔
      ¬ ((∃ qf ∈ d.queueFamilies,
            0 < qf.queueCount ∧ qf.queueFlags.testBit 0 = true) ∧
         (∃ qf ∈ d.queueFamilies,
            0 < qf.queueCount ∧ qf.queueFlags.testBit 1 = true))) ∧
    (((∃ qf ∈ d.queueFamilies,
          0 < qf.queueCount ∧ qf.queueFlags.testBit 0 = true) ∧
      (∃ qf ∈ d.queueFamilies,
          0 < qf.queueCount ∧ qf.queueFlags.testBit 1 = true)) →
      score_physical_device d = base_type_score d.deviceType) := by
  by_cases hc : confirm_queue_fam d
      (VK_QUEUE_GRAPHICS_BIT ||| VK_QUEUE_COMPUTE_BIT) = true
  · have hcov := (confirm_queue_fam_gc_iff d).mp hc
    constructor
    · apply iff_of_false
      · unfold score_physical_device
        rw [if_pos hc]
        cases d.deviceType <;> simp [base_type_score]
      · exact not_not_intro hcov
    · intro _
      unfold score_physical_device
      rw [if_pos hc]
  · constructor
    · apply iff_of_true
      · unfold score_physical_device
        rw [if_neg hc]
      · intro hcov
        exact hc ((confirm_queue_fam_gc_iff d).mpr hcov)
    · intro hcov
      exact absurd ((confirm_queue_fam_gc_iff d).mpr hcov) hc

/-- C1 witness: a virtual device with one `graphics+compute` family (flags
`3`, two queues) scores its base type score; a discrete device whose only
graphics-capable family has zero queues scores `-1`. -/
theorem score_physical_device_eligibility_witness :
    score_physical_device ⟨.virtualGpu, [⟨3, 2⟩]⟩
        = base_type_score VkPhysicalDeviceType.virtualGpu ∧
    score_physical_device ⟨.discreteGpu, [⟨1, 0⟩, ⟨2, 1⟩]⟩ = -1 :=
  ⟨(score_physical_device_eligibility ⟨.virtualGpu, [⟨3, 2⟩]⟩).2
      ⟨⟨⟨3, 2⟩, by simp, by decide, by decide⟩,
       ⟨⟨3, 2⟩, by simp, by decide, by decide⟩⟩,
   (score_physical_device_eligibility
      ⟨.discreteGpu, [⟨1, 0⟩, ⟨2, 1⟩]⟩).1.mpr (by decide)⟩

/-- The device-type rank order stated by the spec: discrete above virtual
above integrated above CPU above "other". -/
def deviceTypeRank : VkPhysicalDeviceType → Nat
  | .other => 0
  | .cpu => 1
  | .integratedGpu => 2
  | .virtualGpu => 3
  | .discreteGpu => 4

/-- C7: holding eligibility fixed (both devices pass the queue-capability
gate), the score is strictly monotonic in device-type rank. -/
theorem score_strict_mono_in_rank (d e : VkPhysicalDevice)
    (hd : confirm_queue_fam d
      (VK_QUEUE_GRAPHICS_BIT ||| VK_QUEUE_COMPUTE_BIT) = true)
    (he : confirm_queue_fam e
      (VK_QUEUE_GRAPHICS_BIT ||| VK_QUEUE_COMPUTE_BIT) = true)
    (hrank : deviceTypeRank e.deviceType < deviceTypeRank d.deviceType) :
    score_physical_device e < score_physical_device d := by
  unfold score_physical_device
  rw [if_pos hd, if_pos he]
  revert hrank
  cases d.deviceType <;> cases e.deviceType <;> decide

/-- C7 witness: the full strict chain
discrete > virtual > integrated > CPU > other, each link produced by the
monotonicity theorem on concrete eligible devices. -/
theorem score_strict_mono_in_rank_witness :
    score_physical_device ⟨.virtualGpu, [⟨3, 1⟩]⟩
        < score_physical_device ⟨.discreteGpu, [⟨3, 1⟩]⟩ ∧
    score_physical_device ⟨.integratedGpu, [⟨3, 1⟩]⟩
        < score_physical_device ⟨.virtualGpu, [⟨3, 1⟩]⟩ ∧
    score_physical_device ⟨.cpu, [⟨3, 1⟩]⟩
        < score_physical_device ⟨.integratedGpu, [⟨3, 1⟩]⟩ ∧
    score_physical_device ⟨.other, [⟨3, 1⟩]⟩
        < score_physical_device ⟨.cpu, [⟨3, 1⟩]⟩ :=
  ⟨score_strict_mono_in_rank _ _ (by decide) (by decide) (by decide),
   score_strict_mono_in_rank _ _ (by decide) (by decide) (by decide),
   score_strict_mono_in_rank _ _ (by decide) (by decide) (by decide),
   score_strict_mono_in_rank _ _ (by decide) (by decide) (by decide)⟩

/-- C5: `finishOneSubmitCommands` performs the queue-idle wait iff the
submit succeeded, the caller requested blocking, and the fence is the null
handle; with a submit failure, with blocking not requested, or with a
non-null fence, no wait call is emitted (fence presence suppresses the
implicit wait even when blocking was requested). -/
theorem finish_waits_iff (self : QueueClosure) (aCmdBuffer : Nat)
    (ws ss : List Nat) (aFence : Nat) (aShouldWait : Bool) (res : VkResult) :
    VkCall.queueWaitIdle self.mQueue ∈
        (self.finishOneSubmitCommands aCmdBuffer ws ss aFence aShouldWait
          res).2.2 ↔
      (res = VkResult.success ∧ aShouldWait = true ∧
        aFence = VK_NULL_HANDLE) := by
  unfold QueueClosure.finishOneSubmitCommands QueueClosure.cleanupSubmit
  by_cases h1 : res = VkResult.success ∧ aShouldWait = true ∧
      aFence = VK_NULL_HANDLE <;>
    by_cases h2 : aCmdBuffer ≠ VK_NULL_HANDLE ∧ self.mCmdPoolInternal <;>
      by_cases h3 : self.mCommandPool ≠ VK_NULL_HANDLE <;>
        simp [h1, h2, h3]

/-- C9: in every invocation of `finishOneSubmitCommands` — through the
five-argument overload or the two-argument overload with empty wait and
signal lists — the end-of-recording call on the command buffer occurs in
the emitted API trace strictly before the submit call carrying the built
submission. -/
theorem finish_ends_recording_before_submit (self : QueueClosure)
    (aCmdBuffer : Nat) (ws ss : List Nat) (aFence : Nat)
    (aShouldWait : Bool) (res : VkResult) :
    (∃ i j : Nat, i < j ∧
      ((self.finishOneSubmitCommands aCmdBuffer ws ss aFence aShouldWait
          res).2.2)[i]? = some (VkCall.endCommandBuffer aCmdBuffer) ∧
      ((self.finishOneSubmitCommands aCmdBuffer ws ss aFence aShouldWait
          res).2.2)[j]? = some (VkCall.queueSubmit self.mQueue ws ss
            [aCmdBuffer] aFence)) ∧
    (∃ i j : Nat, i < j ∧
      ((self.finishOneSubmitCommandsNoSem aCmdBuffer aFence aShouldWait
          res).2.2)[i]? = some (VkCall.endCommandBuffer aCmdBuffer) ∧
      ((self.finishOneSubmitCommandsNoSem aCmdBuffer aFence aShouldWait
          res).2.2)[j]? = some (VkCall.queueSubmit self.mQueue [] []
            [aCmdBuffer] aFence)) := by
  rcases hcl : self.cleanupSubmit aCmdBuffer with ⟨s, t⟩
  constructor
  · refine ⟨0, 1, Nat.zero_lt_one, ?_, ?_⟩ <;>
      simp [QueueClosure.finishOneSubmitCommands, hcl]
  · refine ⟨0, 1, Nat.zero_lt_one, ?_, ?_⟩ <;>
      simp [QueueClosure.finishOneSubmitCommandsNoSem,
        QueueClosure.finishOneSubmitCommands, hcl]

/-- C4: whatever the submit outcome, when the closure created its pool
internally in `begin` (null external pool), `finish` frees the allocated
command buffer from that pool, destroys the pool, and resets both members
(pool handle nulled, flag cleared — the closure is back to Idle); when the
caller supplied an external pool to `begin` from the Idle state, `finish`
emits no free and no destroy against that pool. -/
theorem finish_cleanup_ownership (st0 : QueueClosure)
    (ext freshPool freshBuf : Nat) (ws ss : List Nat) (aFence : Nat)
    (aShouldWait : Bool) (res : VkResult)
    (hpool : freshPool ≠ VK_NULL_HANDLE) (hbuf : freshBuf ≠ VK_NULL_HANDLE)
    (hidle : st0.Idle) :
    (let b := st0.beginOneSubmitCommands VK_NULL_HANDLE freshPool freshBuf
     let f := b.1.finishOneSubmitCommands b.2.1 ws ss aFence aShouldWait res
     VkCall.freeCommandBuffers freshPool [freshBuf] ∈ f.2.2 ∧
     VkCall.destroyCommandPool freshPool ∈ f.2.2 ∧
     f.1.mCmdPoolInternal = false ∧ f.1.mCommandPool = VK_NULL_HANDLE) ∧
    (ext ≠ VK_NULL_HANDLE →
     let b := st0.beginOneSubmitCommands ext freshPool freshBuf
     let f := b.1.finishOneSubmitCommands b.2.1 ws ss aFence aShouldWait res
     (∀ bufs, VkCall.freeCommandBuffers ext bufs ∉ f.2.2) ∧
     VkCall.destroyCommandPool ext ∉ f.2.2) := by
  obtain ⟨hP, hF⟩ := hidle
  constructor
  · by_cases h1 : res = VkResult.success ∧ aShouldWait = true ∧
        aFence = VK_NULL_HANDLE <;>
      simp [QueueClosure.beginOneSubmitCommands,
        QueueClosure.finishOneSubmitCommands, QueueClosure.cleanupSubmit,
        hpool, hbuf, h1]
  · intro hext
    by_cases h1 : res = VkResult.success ∧ aShouldWait = true ∧
        aFence = VK_NULL_HANDLE <;>
      simp [QueueClosure.beginOneSubmitCommands,
        QueueClosure.finishOneSubmitCommands, QueueClosure.cleanupSubmit,
        hext, hP, hF, h1]

/-- C4 witness: a concrete Idle closure (queue 5, family 2, device 9) run
through the internal-pool path (fresh pool 11, fresh buffer 13) and, for
the external branch, through a begin with external pool 7. -/
theorem finish_cleanup_ownership_witness :
    (let b := QueueClosure.beginOneSubmitCommands ⟨5, 2, 9, 0, false⟩
        VK_NULL_HANDLE 11 13
     let f := b.1.finishOneSubmitCommands b.2.1 [] [] 0 true
        VkResult.success
     VkCall.freeCommandBuffers 11 [13] ∈ f.2.2 ∧
     VkCall.destroyCommandPool 11 ∈ f.2.2 ∧
     f.1.mCmdPoolInternal = false ∧ f.1.mCommandPool = VK_NULL_HANDLE) ∧
    ((7 : Nat) ≠ VK_NULL_HANDLE →
     let b := QueueClosure.beginOneSubmitCommands ⟨5, 2, 9, 0, false⟩
        7 11 13
     let f := b.1.finishOneSubmitCommands b.2.1 [] [] 0 true
        VkResult.success
     (∀ bufs, VkCall.freeCommandBuffers 7 bufs ∉ f.2.2) ∧
     VkCall.destroyCommandPool 7 ∉ f.2.2) :=
  finish_cleanup_ownership ⟨5, 2, 9, 0, false⟩ 7 11 13 [] [] 0 true
    VkResult.success (by decide) (by decide) ⟨rfl, rfl⟩

/-- C10: `beginOneSubmitCommands` called with a non-null external pool
leaves the closure's members — in particular the owned-pool handle and
the internally-created flag — unchanged; the cleanup run by `finish`
destroys at most the stored pool member; consequently a subsequent
`finish` cannot destroy the caller's external pool (which differs from
the stored member). -/
theorem begin_external_frame (st : QueueClosure)
    (ext freshPool freshBuf buf : Nat) (ws ss : List Nat) (aFence : Nat)
    (aShouldWait : Bool) (res : VkResult) (hext : ext ≠ VK_NULL_HANDLE) :
    (st.beginOneSubmitCommands ext freshPool freshBuf).1 = st ∧
    (∀ pool, VkCall.destroyCommandPool pool ∈ (st.cleanupSubmit buf).2 →
      pool = st.mCommandPool) ∧
    (st.mCommandPool ≠ ext →
      VkCall.destroyCommandPool ext ∉
        ((st.beginOneSubmitCommands ext freshPool freshBuf).1.finishOneSubmitCommands
          (st.beginOneSubmitCommands ext freshPool freshBuf).2.1 ws ss
          aFence aShouldWait res).2.2) := by
  have hbegin : (st.beginOneSubmitCommands ext freshPool freshBuf).1 = st := by
    simp [QueueClosure.beginOneSubmitCommands, hext]
  refine ⟨hbegin, ?_, ?_⟩
  · intro pool hmem
    unfold QueueClosure.cleanupSubmit at hmem
    by_cases h2 : buf ≠ VK_NULL_HANDLE ∧ st.mCmdPoolInternal <;>
      by_cases h3 : st.mCommandPool ≠ VK_NULL_HANDLE <;>
        simp [h2, h3] at hmem <;> exact hmem
  · intro hne
    by_cases h1 : res = VkResult.success ∧ aShouldWait = true ∧
        aFence = VK_NULL_HANDLE <;>
      by_cases h2 : freshBuf ≠ VK_NULL_HANDLE ∧ st.mCmdPoolInternal <;>
        by_cases h3 : st.mCommandPool ≠ VK_NULL_HANDLE <;>
          simp [QueueClosure.beginOneSubmitCommands,
            QueueClosure.finishOneSubmitCommands,
            QueueClosure.cleanupSubmit, hext, hne.symm, h1, h2, h3]

/-- C10 witness: a closure that already owns pool 3, given external pool 7
in `begin`: its members are unchanged by `begin`, and `finish` never
destroys pool 7. -/
theorem begin_external_frame_witness :
    (QueueClosure.beginOneSubmitCommands ⟨5, 2, 9, 3, true⟩ 7 11 13).1
        = ⟨5, 2, 9, 3, true⟩ ∧
    VkCall.destroyCommandPool 7 ∉
      ((QueueClosure.beginOneSubmitCommands
          ⟨5, 2, 9, 3, true⟩ 7 11 13).1.finishOneSubmitCommands
        (QueueClosure.beginOneSubmitCommands
          ⟨5, 2, 9, 3, true⟩ 7 11 13).2.1 [] [] 0 true
        VkResult.success).2.2 := by
  have h := begin_external_frame ⟨5, 2, 9, 3, true⟩ 7 11 13 13 [] [] 0 true
    VkResult.success (by decide)
  exact ⟨h.1, h.2.2 (by decide)⟩

end Vkutils
